import Mathlib

/-!
Shallow embedding of the conversation-context manager of the Personal-Coach
backend (src/backend/utils.py and the streamed-chat generator of
src/backend/app.py), together with theorems settling the frozen claims.

Modelling conventions:
* Python strings are Lean `String`s; Python `None`-able values are `Option`s.
* Machine time (`time.time()`) is a `Nat` passed explicitly as `now`; the
  source may call `time.time()` twice in one operation at instants that are
  indistinguishable for the properties at stake, so one `now` stands for both.
* Fallible operations return `Except String α`; a raised Python exception is
  `.error msg`.
* The LLM gateway (`client.models.generate_content`) is an oracle parameter
  `llm : String → Except String String` mapping the full prompt text to either
  the response text or a raised exception.
* The prompt template files under `prompts/` are data, not code of the
  repository; a template together with Python `str.format` is modelled as an
  abstract function field of `Cfg` (application = `format`).
* The summarization-call log of `_build_conversation_context` is made explicit:
  LLM-summarization entry points return the list of summarization prompts they
  issued alongside their result, so "exactly one summarization call" is a
  statement about that list.
-/

/-- Python `sep.join(parts)`. -/
def pyJoin (sep : String) : List String → String
  | [] => ""
  | [x] => x
  | x :: xs => x ++ sep ++ pyJoin sep xs

/-- Truthiness of an optional Python string (`None` and `""` are falsy). -/
def strTruthy : Option String → Bool
  | none => false
  | some s => !(s == "")

/-- `[x]` when the optional string is truthy, else `[]`; models the
`if block: parts.append(block)` idiom of `_build_system_instruction`. -/
def optTruthyToList (o : Option String) : List String :=
  match o with
  | some s => if s == "" then [] else [s]
  | none => []

/-- One conversation turn (`{"role": ..., "content": ...}`). -/
structure Turn where
  role : String
  content : String
deriving DecidableEq

/-- The durable side-store `conversation_summary.json`: absent file,
unreadable file (JSONDecodeError/KeyError on read), or a readable JSON object
whose `"summary"` key holds `data.get("summary")` (possibly `None`). -/
inductive StoreState where
  | absent
  | unreadable
  | readable (summary : Option String)
deriving DecidableEq

/-- In-process state of `LLMStreamingClient` relevant to the rolling summary:
`_summary_cache`, `_summary_cache_time`, and the side-store contents. -/
structure ClientState where
  cache : Option String
  cacheTime : Nat
  store : StoreState
deriving DecidableEq

/-- `config_manager.history_truncate_threshold` (config.py line 22). -/
def historyTruncateThreshold : Nat := 30

/-- `config_manager.summary_cache_timeout` (config.py line 23). -/
def summaryCacheTimeout : Nat := 300

/-- Arguments of `memory_extraction_prompt.format(...)`. -/
structure MemPromptArgs where
  userMessage : String
  assistantResponse : String
  conversationContext : String
  existingMemories : String

/-- Prompt configuration. The template texts live in data files under
`prompts/`, so each template is an abstract function: applying it is
`template.format(...)`. -/
structure Cfg where
  systemPrompt : String
  summaryFmt : String → String
  memoryExtractionFmt : MemPromptArgs → String

/-- `_load_conversation_summary` (utils.py 58-74). Returns the loaded value and
the updated client state (the cache is refreshed when the store is read). -/
def loadConversationSummary (st : ClientState) (now : Nat) : Option String × ClientState :=
  if strTruthy st.cache = true ∧ now - st.cacheTime < summaryCacheTimeout then
    (st.cache, st)
  else
    match st.store with
    | StoreState.absent => (none, st)
    | StoreState.unreadable => (none, st)
    | StoreState.readable s => (s, { cache := s, cacheTime := now, store := st.store })

/-- The summary recorded in the durable store; `none` when the store is absent
or unreadable. -/
def storeSummary : StoreState → Option String
  | StoreState.absent => none
  | StoreState.unreadable => none
  | StoreState.readable s => s

/-- `_save_conversation_summary` (utils.py 76-84): overwrites the store
wholesale with `{"summary": summary, ...}` and refreshes the cache. The
`last_updated` metadata field is not modelled. -/
def saveConversationSummary (_st : ClientState) (now : Nat) (s : String) : ClientState :=
  { cache := some s, cacheTime := now, store := StoreState.readable (some s) }

/-- Transcript used by `_create_summary`:
`"\n".join(f"{item['role']}: {item['content']}" for item in history)`. -/
def historyText (h : List Turn) : String :=
  pyJoin "\n" (h.map (fun t => t.role ++ ": " ++ t.content))

/-- The full summarization prompt
`conversation_summary_prompt.format(history_text=...)`. -/
def summaryPromptOf (cfg : Cfg) (h : List Turn) : String :=
  cfg.summaryFmt (historyText h)

/-- `_create_summary` (utils.py 86-104): issues one LLM call on the
summarization prompt. Returns the log of summarization prompts issued (always
exactly one) and the call's outcome. -/
def createSummary (llm : String → Except String String) (cfg : Cfg) (history : List Turn) :
    List String × Except String String :=
  let prompt := summaryPromptOf cfg history
  ([prompt], llm prompt)

/-- `_build_conversation_context` (utils.py 280-292). First component: the log
of summarization prompts issued. Second: the (truncated history, surfaced
summary, updated client state), or the propagated exception. -/
def buildConversationContext (llm : String → Except String String) (cfg : Cfg)
    (st : ClientState) (now : Nat) (history : List Turn) :
    List String × Except String (List Turn × Option String × ClientState) :=
  if history.isEmpty then
    ([], Except.ok ([], none, st))
  else
    let es := loadConversationSummary st now
    if historyTruncateThreshold < history.length then
      let call := createSummary llm cfg (history.take (history.length - 30))
      match call.2 with
      | Except.error e => (call.1, Except.error e)
      | Except.ok summary =>
          (call.1, Except.ok (history.drop (history.length - historyTruncateThreshold),
                              some summary, saveConversationSummary es.2 now summary))
    else
      ([], Except.ok (history, es.1, es.2))

/-- Drop leading whitespace of a character list. -/
def skipWs : List Char → List Char
  | [] => []
  | c :: cs => if c.isWhitespace then skipWs cs else c :: cs

/-- Python `str.strip()`: drop leading and trailing whitespace. -/
def pyStrip (s : String) : String :=
  String.mk ((skipWs (skipWs s.data).reverse).reverse)

/-- Python `str.upper()` (ASCII, the only characters the code compares). -/
def pyUpper (s : String) : String :=
  String.mk (s.data.map Char.toUpper)

/-- Split a character list on the dash character (Python `%Y-%m-%d` field
separation). -/
def splitDash : List Char → List (List Char)
  | [] => [[]]
  | c :: cs =>
    if c = '-' then [] :: splitDash cs
    else match splitDash cs with
      | [] => [[c]]
      | p :: ps => (c :: p) :: ps

/-- Numeric value of a digit string. -/
def digitsVal (cs : List Char) : Nat :=
  cs.foldl (fun acc c => acc * 10 + (c.toNat - 48)) 0

/-- The characters of a Python string literal up to (excluding) the closing
quote `q`, plus the remainder after the quote. Escape sequences are not
supported: a backslash makes the parse fail, which the caller turns into the
empty-list fallback. -/
def takeStrChars (q : Char) : List Char → Option (List Char × List Char)
  | [] => none
  | c :: cs =>
    if c = q then some ([], cs)
    else if c = Char.ofNat 92 then none
    else match takeStrChars q cs with
      | some (s, rest) => some (c :: s, rest)
      | none => none

/-- Parse one quoted Python string literal (single or double quotes). -/
def parseStrLit : List Char → Option (String × List Char)
  | [] => none
  | c :: cs =>
    if c = '"' ∨ c = Char.ofNat 39 then
      match takeStrChars c cs with
      | some (s, rest) => some (String.mk s, rest)
      | none => none
    else none

/-- Parse the items of a Python list literal after the opening bracket:
comma-separated string literals, optional trailing comma, closing bracket.
The fuel argument only bounds recursion depth. -/
def parseItemsFuel : Nat → List Char → Option (List String × List Char)
  | 0, _ => none
  | fuel + 1, cs0 =>
    match skipWs cs0 with
    | [] => none
    | c :: rest =>
      if c = ']' then some ([], rest)
      else
        match parseStrLit (c :: rest) with
        | none => none
        | some (s, afterStr) =>
          match skipWs afterStr with
          | [] => none
          | d :: rest2 =>
            if d = ']' then some ([s], rest2)
            else if d = ',' then
              match parseItemsFuel fuel rest2 with
              | some (ss, r) => some (s :: ss, r)
              | none => none
            else none

/-- Model of Python `ast.literal_eval` restricted to list-of-string literals —
the shape the memory-extraction prompt asks the model for and the only shape
the surrounding code's claims exercise. Any other Python literal, any escape
sequence, any trailing garbage, or any syntax error is a parse failure
(`none`), which `_extract_list_from_response` maps to `[]` exactly as its
`except` clause does. -/
def pyLiteralEvalStrList (s : String) : Option (List String) :=
  match skipWs s.data with
  | c :: rest =>
    if c = '[' then
      match parseItemsFuel (s.length + 1) rest with
      | some (items, rest2) => if (skipWs rest2).isEmpty then some items else none
      | none => none
    else none
  | [] => none

/-- Index of the first occurrence of `c` (Python `str.find`, as an `Option`). -/
def findCharIdx (c : Char) : List Char → Option Nat
  | [] => none
  | x :: xs => if x = c then some 0 else (findCharIdx c xs).map (· + 1)

/-- Index of the last occurrence of `c` (Python `str.rfind`, as an `Option`). -/
def rfindCharIdx (c : Char) (cs : List Char) : Option Nat :=
  (findCharIdx c cs.reverse).map (fun i => cs.length - 1 - i)

/-- `_extract_list_from_response` (utils.py 118-134): slice from the first `[`
to the last `]`, literal-parse, stringify-and-trim each element, drop the ones
that trim to empty; every failure mode yields `[]`. -/
def extractListFromResponse (content : String) : List String :=
  match findCharIdx '[' content.data, rfindCharIdx ']' content.data with
  | some i, some j =>
    let sub := String.mk ((content.data.drop i).take (j + 1 - i))
    match pyLiteralEvalStrList sub with
    | some items =>
        items.filterMap (fun it => let t := pyStrip it; if t = "" then none else some t)
    | none => []
  | _, _ => []

/-- Reply handling of `_extract_memories` after the LLM call (utils.py
175-181): strip, treat `""` and case-insensitive `"NONE"` as no memories,
otherwise delegate to `_extract_list_from_response`. -/
def replyToMemories (text : String) : List String :=
  let content := pyStrip text
  if pyUpper content = "NONE" ∨ content = "" then []
  else extractListFromResponse content

/-- A calendar date as produced by `datetime.strptime(value, "%Y-%m-%d").date()`. -/
structure PDate where
  year : Nat
  month : Nat
  day : Nat
deriving DecidableEq

/-- Gregorian leap-year rule, as implemented by Python `datetime`. -/
def isLeap (y : Nat) : Bool :=
  (y % 4 == 0 && y % 100 != 0) || y % 400 == 0

/-- Days in a month, as validated by Python `datetime`. -/
def daysInMonth (y m : Nat) : Nat :=
  if m = 2 then (if isLeap y then 29 else 28)
  else if m = 4 ∨ m = 6 ∨ m = 9 ∨ m = 11 then 30
  else 31

/-- The `%d` field of CPython's `_strptime` (its regex is
`3[01]|[12]\d|0[1-9]|[1-9]| [1-9]`): one or two digits, or a blank-padded
single non-zero digit. Returns the digit characters of the day, or `none`
when the field cannot match. -/
def dayField : List Char → Option (List Char)
  | [' ', c] => if c.isDigit && c ≠ '0' then some [c] else none
  | ds => if 1 ≤ ds.length && ds.length ≤ 2 && ds.all Char.isDigit then some ds else none

/-- Model of `datetime.strptime(value, "%Y-%m-%d")`, following CPython's
`_strptime` regexes: `%Y` matches exactly four digits (`\d\d\d\d`), `%m`
matches one or two digits, `%d` matches one or two digits or a blank-padded
single non-zero digit (`dayField`), the three fields are separated by literal
dashes, and the whole string must be consumed (unconverted data raises).
The matched numbers must then form a valid `datetime.date`: year at least 1,
month 1-12, day within the (leap-aware) month length. Any violation raises
`ValueError` in Python, i.e. yields `none` here. Digits are modelled as
ASCII. -/
def parseDateYMD (v : String) : Option PDate :=
  match splitDash v.data with
  | [ys, ms, ds] =>
    match dayField ds with
    | none => none
    | some dds =>
      if ys.length == 4 && ys.all Char.isDigit
          && 1 ≤ ms.length && ms.length ≤ 2 && ms.all Char.isDigit then
        let y := digitsVal ys
        let m := digitsVal ms
        let d := digitsVal dds
        if 1 ≤ y && 1 ≤ m && m ≤ 12 && 1 ≤ d && d ≤ daysInMonth y m then
          some ⟨y, m, d⟩
        else none
      else none
  | _ => none

/-- One element of the JSON array stored in `UserProfile.memories`. -/
structure MemEntry where
  content : String
  timestamp : String
deriving DecidableEq

/-- A `Goal` row (models.py): only the columns the context manager reads. -/
structure Goal where
  user_id : Nat
  description : String
  status : String
  created_at : Nat
deriving DecidableEq

/-- A `UserProfile` row. `memories` models the JSON-decoded contents of the
`memories` text column: `none` for SQL `NULL`/empty, `some l` for a decoded
array. -/
structure Profile where
  user_id : Nat
  first_name : Option String
  last_name : Option String
  birth_date : Option PDate
  memories : Option (List MemEntry)
  updated_at : Option Nat
deriving DecidableEq

/-- The persistence gateway: committed rows plus failure switches modelling a
raising query (`goalsReadFails`, `profileReadFails`) and a raising
`db.commit()` (`commitFails`). -/
structure Db where
  profiles : List Profile
  goals : List Goal
  goalsReadFails : Bool
  profileReadFails : Bool
  commitFails : Bool
deriving DecidableEq

/-- Replace the profile row with the same `user_id`, or append. -/
def upsertProfile (p : Profile) : List Profile → List Profile
  | [] => [p]
  | q :: qs => if q.user_id == p.user_id then p :: qs else q :: upsertProfile p qs

/-- The `Goal` rows matched by
`filter(Goal.user_id == user_id, Goal.status == "Active")`. -/
def activeGoalsOf (u : Nat) (d : Db) : List Goal :=
  d.goals.filter (fun g => g.user_id == u && g.status == "Active")

/-- Insert one goal into a list sorted by `created_at` descending. -/
def insertGoalDesc (g : Goal) : List Goal → List Goal
  | [] => [g]
  | h :: t => if h.created_at < g.created_at then g :: h :: t else h :: insertGoalDesc g t

/-- `order_by(Goal.created_at.desc())`. -/
def sortGoalsByCreatedDesc (l : List Goal) : List Goal :=
  l.foldr insertGoalDesc []

/-- An ASCII apostrophe (kept out of string literals). -/
def apos : String := String.mk [Char.ofNat 39]

/-- The goals block rendered by `_build_goals_context`: begin marker, one
bullet per goal, end marker, newline-joined. -/
def renderGoalsBlock (gs : List Goal) : String :=
  pyJoin "\n" ((("=== USER" ++ apos ++ "S CURRENT GOALS ===") ::
    gs.map (fun g => "• " ++ g.description)) ++ ["=== END GOALS ==="])

/-- `_build_goals_context` (utils.py 214-233): at most the 10 most recently
created Active goals, rendered as bullets inside begin/end markers; `none`
when there are no such goals or the read raises (the `except` clause). -/
def buildGoalsContext (u : Nat) (d : Db) : Option String :=
  if d.goalsReadFails then none
  else
    let gs := (sortGoalsByCreatedDesc (activeGoalsOf u d)).take 10
    if gs.isEmpty then none else some (renderGoalsBlock gs)

/-- `memories[-15:] if len(memories) > 15 else memories`. -/
def recentMemories (ms : List MemEntry) : List MemEntry :=
  if 15 < ms.length then ms.drop (ms.length - 15) else ms

/-- The memories block rendered by `_build_memories_context`. -/
def renderMemoriesBlock (ms : List MemEntry) : String :=
  pyJoin "\n" (("=== COACH NOTES & INSIGHTS ===" ::
    ms.map (fun m => "• " ++ m.content)) ++ ["=== END COACH NOTES ==="])

/-- `_build_memories_context` (utils.py 235-256): the profile's 15 most recent
memories as bullets inside begin/end markers; `none` when there is no profile,
no memories, or the read raises. -/
def buildMemoriesContext (u : Nat) (d : Db) : Option String :=
  if d.profileReadFails then none
  else
    match d.profiles.find? (fun p => p.user_id == u) with
    | none => none
    | some p =>
      match p.memories with
      | none => none
      | some [] => none
      | some ms => some (renderMemoriesBlock (recentMemories ms))

/-- The goals block as seen by `_build_system_instruction`, including the
`if user_id and db:` guard (a user id of 0 is falsy in Python). -/
def goalsBlockOf (userId : Option Nat) (db : Option Db) : Option String :=
  match userId, db with
  | some u, some d => if u == 0 then none else buildGoalsContext u d
  | _, _ => none

/-- The memories block as seen by `_build_system_instruction`, same guard. -/
def memoriesBlockOf (userId : Option Nat) (db : Option Db) : Option String :=
  match userId, db with
  | some u, some d => if u == 0 then none else buildMemoriesContext u d
  | _, _ => none

/-- The summary block appended by `_build_system_instruction`:
`f"Previous conversation summary: {existing_summary}"`, only when the loaded
summary is truthy. -/
def summaryBlockOf (st : ClientState) (now : Nat) : Option String :=
  match (loadConversationSummary st now).1 with
  | some s => if s = "" then none else some ("Previous conversation summary: " ++ s)
  | none => none

/-- `_build_system_instruction` (utils.py 258-278): the base system prompt,
then (guarded by `if user_id and db:`) the truthy goals and memories blocks,
then the truthy summary block, joined with blank lines. Also returns the
client state updated by the summary load. -/
def buildSystemInstruction (cfg : Cfg) (st : ClientState) (now : Nat)
    (userId : Option Nat) (db : Option Db) : String × ClientState :=
  (pyJoin "\n\n" ([cfg.systemPrompt]
      ++ optTruthyToList (goalsBlockOf userId db)
      ++ optTruthyToList (memoriesBlockOf userId db)
      ++ (summaryBlockOf st now).toList),
   (loadConversationSummary st now).2)

/-- Truthiness of the optional history argument (`if history:`): `None` and the
empty list are falsy. -/
def historyTruthy : Option (List Turn) → Bool
  | none => false
  | some h => !h.isEmpty

/-- The `conversation_context` string assembled by `_extract_memories`
(utils.py 138-149): optional summary sentence, then the last 10 processed
turns rendered one per line with `User`/`Assistant` labels. -/
def convContextOf (processed : List Turn) (summary : Option String) : String :=
  let s1 := match summary with
    | some s => if s = "" then "" else "Previous conversation summary: " ++ s ++ "\n\n"
    | none => ""
  let recent := processed.drop (processed.length - 10)
  if recent.isEmpty then s1
  else s1 ++ "Recent conversation:\n" ++
    String.join (recent.map (fun m =>
      (if m.role = "user" then "User" else "Assistant") ++ ": " ++ m.content ++ "\n"))

/-- The `try` block of `_extract_memories` (utils.py 151-184): assemble the
existing-memories text (guarded by `if user_id and db:`), format the
extraction prompt, call the LLM, and parse the reply; any exception of the
call is caught and yields `[]`. -/
def extractTail (llm : String → Except String String) (cfg : Cfg)
    (userMessage assistantResponse : String) (userId : Option Nat) (db : Option Db)
    (convCtx : String) (st1 : ClientState) : Except String (List String × ClientState) :=
  let existingMem := match userId, db with
    | some u, some d => if u == 0 then "" else (buildMemoriesContext u d).getD ""
    | _, _ => ""
  let prompt := cfg.memoryExtractionFmt
    ⟨userMessage, assistantResponse, convCtx, existingMem⟩
  match llm prompt with
  | Except.error _ => Except.ok ([], st1)
  | Except.ok text => Except.ok (replyToMemories text, st1)

/-- `_extract_memories` (utils.py 136-184). The conversation context is built
before the `try` block, so an exception raised there (in particular a failed
summarization for an over-threshold history) propagates; the LLM extraction
call and the reply parsing sit inside the `try` (`extractTail`) and degrade to
`[]`. Returns the extracted memory strings and the updated client state. -/
def extractMemories (llm : String → Except String String) (cfg : Cfg)
    (st : ClientState) (now : Nat) (userMessage assistantResponse : String)
    (history : Option (List Turn)) (userId : Option Nat) (db : Option Db) :
    Except String (List String × ClientState) :=
  let ctxStep : Except String (String × ClientState) :=
    if historyTruthy history then
      match (buildConversationContext llm cfg st now (history.getD [])).2 with
      | Except.error e => Except.error e
      | Except.ok (ph, summary, st1) => Except.ok (convContextOf ph summary, st1)
    else Except.ok ("", st)
  match ctxStep with
  | Except.error e => Except.error e
  | Except.ok (convCtx, st1) =>
    extractTail llm cfg userMessage assistantResponse userId db convCtx st1

/-- `save_memories_to_db` (utils.py 186-212): no-op on an empty list; otherwise
append one entry per string to the profile's memories (creating the profile if
absent) and commit; a failing commit rolls back and re-raises. -/
def saveMemoriesToDb (mems : List String) (uid : Nat) (d : Db) (now : Nat) :
    Except String Db :=
  if mems.isEmpty then Except.ok d
  else if d.commitFails then Except.error "commit failed"
  else
    let p := (d.profiles.find? (fun q => q.user_id == uid)).getD
      ⟨uid, none, none, none, some [], none⟩
    let existing := p.memories.getD []
    let appended := mems.map (fun c => MemEntry.mk c (toString now))
    let p2 := { p with memories := some (existing ++ appended) }
    Except.ok { d with profiles := upsertProfile p2 d.profiles }

/-- The argument dict of an `update_user_profile` tool call; `none` models a
missing key. -/
structure ToolArgs where
  user_profile_key : Option String
  user_profile_value : Option String
deriving DecidableEq

/-- Commit a profile row: a failing `db.commit()` rolls back and re-raises
(utils.py 519-523). -/
def commitProfile (d : Db) (p : Profile) : Except String (Option Db) :=
  if d.commitFails then Except.error "commit failed"
  else Except.ok (some { d with profiles := upsertProfile p d.profiles })

/-- `_handle_update_user_profile` (utils.py 462-523). Returns the committed
database state (unchanged whenever the code path reaches no successful
commit); `.error` models an exception propagating to the caller, which only
the final `db.commit()` of a name/date update can produce. -/
def handleUpdateUserProfile (args : ToolArgs) (userId : Option Nat)
    (db : Option Db) (now : Nat) : Except String (Option Db) :=
  match userId, db with
  | some uid, some d =>
    if uid == 0 then Except.ok (some d)
    else
      match args.user_profile_key, args.user_profile_value with
      | some key, some value =>
        if key == "memories" then
          let items := extractListFromResponse value
          if items.isEmpty then Except.ok (some d)
          else if d.commitFails then Except.ok (some d)
          else
            let p := (d.profiles.find? (fun q => q.user_id == uid)).getD
              ⟨uid, none, none, none, some [], none⟩
            let existing := p.memories.getD []
            let appended := items.filterMap (fun c =>
              let t := pyStrip c; if t = "" then none else some (MemEntry.mk t (toString now)))
            let p2 := { p with memories := some (existing ++ appended) }
            Except.ok (some { d with profiles := upsertProfile p2 d.profiles })
        else if !(["first_name", "last_name", "birth_date"].contains key) then
          Except.ok (some d)
        else
          let p := (d.profiles.find? (fun q => q.user_id == uid)).getD
            ⟨uid, none, none, none, none, none⟩
          if key == "birth_date" then
            match parseDateYMD value with
            | none => Except.ok (some d)
            | some dt => commitProfile d { p with birth_date := some dt, updated_at := some now }
          else
            if key == "first_name" then
              commitProfile d { p with first_name := some value, updated_at := some now }
            else
              commitProfile d { p with last_name := some value, updated_at := some now }
      | _, _ => Except.ok (some d)
  | _, _ => Except.ok db

/-- One server-sent event of `_generate_stream` (app.py 278-300): the JSON
payload of a `data:` line. `chunk`/`error` carry the respective JSON field;
`done` is the `data: [DONE]` sentinel. -/
inductive Frame where
  | chunk (s : String)
  | error (s : String)
  | done
deriving DecidableEq

/-- `_generate_stream` (app.py 278-300). `src` models the underlying LLM
stream: the chunks it yields, then optionally an exception it raises. Chunks
are forwarded as they arrive; after a complete stream with non-whitespace
accumulated text, memories are extracted and (when non-empty) saved, then the
done sentinel is emitted; any exception is caught and converted into a final
error frame, after which the generator returns. -/
def generateStream (llm : String → Except String String) (cfg : Cfg)
    (st : ClientState) (now : Nat) (message : String) (history : List Turn)
    (uid : Nat) (d : Db) (src : List String × Option String) : List Frame :=
  let frames := src.1.map Frame.chunk
  match src.2 with
  | some e => frames ++ [Frame.error e]
  | none =>
    let full := String.join src.1
    if pyStrip full = "" then frames ++ [Frame.done]
    else
      match extractMemories llm cfg st now message full (some history) (some uid) (some d) with
      | Except.error e => frames ++ [Frame.error e]
      | Except.ok (mems, _) =>
        if mems.isEmpty then frames ++ [Frame.done]
        else
          match saveMemoriesToDb mems uid d now with
          | Except.error e => frames ++ [Frame.error e]
          | Except.ok _ => frames ++ [Frame.done]

/-- Concrete configuration used by witnesses. -/
def cfg0 : Cfg :=
  { systemPrompt := "SYSTEM"
    summaryFmt := fun t => "SUMMARIZE:" ++ t
    memoryExtractionFmt := fun a =>
      a.userMessage ++ "|" ++ a.assistantResponse ++ "|" ++
        a.conversationContext ++ "|" ++ a.existingMemories }

/-- An LLM oracle that always answers `"SUM"`. -/
def llmOk : String → Except String String := fun _ => Except.ok "SUM"

/-- An LLM oracle that always raises. -/
def llmBad : String → Except String String := fun _ => Except.error "boom"

/-- Fresh client state (`__init__`: no cache, time 0, no summary file). -/
def stInit : ClientState := ⟨none, 0, StoreState.absent⟩

/-- An empty database with no failure switches. -/
def db0 : Db := ⟨[], [], false, false, false⟩

/-- A database whose goals query raises. -/
def dbGoalsFail : Db := ⟨[], [], true, false, false⟩

/-- A single user turn. -/
def turnU : Turn := ⟨"user", "hi"⟩

/-- A 31-turn history, one turn over the truncation threshold. -/
def hist31 : List Turn := List.replicate 31 turnU

theorem buildCC_nil (llm : String → Except String String) (cfg : Cfg)
    (st : ClientState) (now : Nat) :
    buildConversationContext llm cfg st now [] = ([], Except.ok ([], none, st)) := rfl

theorem buildCC_le (llm : String → Except String String) (cfg : Cfg)
    (st : ClientState) (now : Nat) (history : List Turn)
    (hne : history ≠ []) (hlen : history.length ≤ historyTruncateThreshold) :
    buildConversationContext llm cfg st now history
      = ([], Except.ok (history,
          (loadConversationSummary st now).1, (loadConversationSummary st now).2)) := by
  match history, hne with
  | a :: t, _ =>
    have h1 : (a :: t).isEmpty = false := rfl
    have h2 : ¬ historyTruncateThreshold < (a :: t).length := by omega
    simp only [buildConversationContext, h1, Bool.false_eq_true, if_false, if_neg h2]

theorem buildCC_gt (llm : String → Except String String) (cfg : Cfg)
    (st : ClientState) (now : Nat) (history : List Turn) (s : String)
    (hN : 30 < history.length)
    (hllm : llm (summaryPromptOf cfg (history.take (history.length - 30))) = Except.ok s) :
    buildConversationContext llm cfg st now history
      = ([summaryPromptOf cfg (history.take (history.length - 30))],
         Except.ok (history.drop (history.length - 30), some s,
           (⟨some s, now, StoreState.readable (some s)⟩ : ClientState))) := by
  match history, hN, hllm with
  | a :: t, hN2, hllm2 =>
    have h1 : (a :: t).isEmpty = false := rfl
    simp only [buildConversationContext, h1, Bool.false_eq_true, if_false,
      createSummary, historyTruncateThreshold, hllm2, saveConversationSummary]
    rw [if_pos hN2]

/-- C1: for a history of `N > 30` turns, building the conversation context
issues exactly one summarization call, whose prompt is built from the overflow
turns `History[0 : N-30]` in order; the resulting summary is persisted to the
side-store and cache, replacing any previous value; and the call returns
exactly the last 30 turns `History[N-30 : N]` together with the new summary. -/
theorem truncation_summarizes_overflow (llm : String → Except String String) (cfg : Cfg)
    (st : ClientState) (now : Nat) (history : List Turn) (s : String)
    (hN : 30 < history.length)
    (hllm : llm (summaryPromptOf cfg (history.take (history.length - 30))) = Except.ok s) :
    buildConversationContext llm cfg st now history
      = ([summaryPromptOf cfg (history.take (history.length - 30))],
         Except.ok (history.drop (history.length - 30), some s,
           (⟨some s, now, StoreState.readable (some s)⟩ : ClientState)))
    ∧ (history.drop (history.length - 30)).length = 30 := by
  refine ⟨buildCC_gt llm cfg st now history s hN hllm, ?_⟩
  rw [List.length_drop]
  omega

theorem truncation_summarizes_overflow_witness :
    buildConversationContext llmOk cfg0 stInit 5 hist31
      = ([summaryPromptOf cfg0 (hist31.take (hist31.length - 30))],
         Except.ok (hist31.drop (hist31.length - 30), some "SUM",
           (⟨some "SUM", 5, StoreState.readable (some "SUM")⟩ : ClientState)))
    ∧ (hist31.drop (hist31.length - 30)).length = 30 :=
  truncation_summarizes_overflow llmOk cfg0 stInit 5 hist31 "SUM" (by decide) rfl

/-- C2 counterexample: with an empty history and a persisted, non-expired
summary `"s"` in the side-store, `_build_conversation_context` returns no
surfaced summary at all (`None`), although loading at the same instant
returns `"s"` — refuting the claim that the existing persisted summary is
still surfaced when the history is empty. -/
theorem empty_history_drops_persisted_summary :
    buildConversationContext llmOk cfg0
        (⟨none, 0, StoreState.readable (some "s")⟩ : ClientState) 7 []
      = ([], Except.ok ([], none,
          (⟨none, 0, StoreState.readable (some "s")⟩ : ClientState)))
    ∧ (loadConversationSummary
        (⟨none, 0, StoreState.readable (some "s")⟩ : ClientState) 7).1 = some "s" :=
  ⟨rfl, rfl⟩

/-- C2 (amended): for a history of `N ≤ 30` turns, building the conversation
context performs zero summarization calls and returns the history unchanged in
order; when the history is non-empty the surfaced summary is exactly the
loaded cached/persisted summary, but when the history is empty the component
short-circuits and surfaces no summary even if one is cached or persisted. -/
theorem no_truncation_returns_history_unchanged (llm : String → Except String String)
    (cfg : Cfg) (st : ClientState) (now : Nat) (history : List Turn)
    (hlen : history.length ≤ 30) :
    (buildConversationContext llm cfg st now history).1 = []
    ∧ (history ≠ [] → buildConversationContext llm cfg st now history
        = ([], Except.ok (history,
            (loadConversationSummary st now).1, (loadConversationSummary st now).2)))
    ∧ (history = [] → buildConversationContext llm cfg st now history
        = ([], Except.ok ([], none, st))) := by
  refine ⟨?_, ?_, ?_⟩
  · match history with
    | [] => rfl
    | a :: t =>
      rw [buildCC_le llm cfg st now (a :: t) (by simp)
        (by simpa [historyTruncateThreshold] using hlen)]
  · intro hne
    exact buildCC_le llm cfg st now history hne
      (by simpa [historyTruncateThreshold] using hlen)
  · intro he
    subst he
    rfl

theorem no_truncation_returns_history_unchanged_witness :
    (buildConversationContext llmOk cfg0 stInit 9 [turnU]).1 = []
    ∧ ([turnU] ≠ [] → buildConversationContext llmOk cfg0 stInit 9 [turnU]
        = ([], Except.ok ([turnU],
            (loadConversationSummary stInit 9).1, (loadConversationSummary stInit 9).2)))
    ∧ ([turnU] = [] → buildConversationContext llmOk cfg0 stInit 9 [turnU]
        = ([], Except.ok ([], none, stInit))) :=
  no_truncation_returns_history_unchanged llmOk cfg0 stInit 9 [turnU] (by decide)

/-- C6: the rolling-summary cache never serves a stale entry: the cached value
is returned exactly when the cache is truthy and strictly younger than the
300-second TTL; in every other case the durable side-store is read as the
source of truth, and `None` results when the store is absent or unreadable. -/
theorem summary_cache_ttl (st : ClientState) (now : Nat) :
    (strTruthy st.cache = true ∧ now - st.cacheTime < summaryCacheTimeout →
      loadConversationSummary st now = (st.cache, st))
    ∧ (¬(strTruthy st.cache = true ∧ now - st.cacheTime < summaryCacheTimeout) →
      (loadConversationSummary st now).1 = storeSummary st.store) := by
  constructor
  · intro h
    unfold loadConversationSummary
    rw [if_pos h]
  · intro h
    unfold loadConversationSummary
    rw [if_neg h]
    cases st.store <;> rfl

theorem summary_cache_ttl_witness :
    loadConversationSummary (⟨some "CACHED", 10, StoreState.readable (some "STORED")⟩ : ClientState) 20
      = (some "CACHED", (⟨some "CACHED", 10, StoreState.readable (some "STORED")⟩ : ClientState)) :=
  (summary_cache_ttl (⟨some "CACHED", 10, StoreState.readable (some "STORED")⟩ : ClientState) 20).1
    (by constructor <;> decide)

/-- C7: if the history exceeds the truncation threshold and the summarization
LLM call raises, `_build_conversation_context` propagates the exception to its
caller: its result is the raised error, not an unsummarized oversized
history. -/
theorem summarization_failure_propagates (llm : String → Except String String)
    (cfg : Cfg) (st : ClientState) (now : Nat) (history : List Turn) (e : String)
    (hN : 30 < history.length)
    (hfail : llm (summaryPromptOf cfg (history.take (history.length - 30))) = Except.error e) :
    buildConversationContext llm cfg st now history
      = ([summaryPromptOf cfg (history.take (history.length - 30))], Except.error e) := by
  match history, hN, hfail with
  | a :: t, hN2, hfail2 =>
    have h1 : (a :: t).isEmpty = false := rfl
    simp only [buildConversationContext, h1, Bool.false_eq_true, if_false,
      createSummary, historyTruncateThreshold, hfail2]
    rw [if_pos hN2]

theorem summarization_failure_propagates_witness :
    buildConversationContext llmBad cfg0 stInit 0 hist31
      = ([summaryPromptOf cfg0 (hist31.take (hist31.length - 30))], Except.error "boom") :=
  summarization_failure_propagates llmBad cfg0 stInit 0 hist31 "boom" (by decide) rfl

/-- C10: saving the rolling summary writes the side-store and the in-process
cache coherently (both now hold `s`), and a load performed within the TTL
window, before any other mutation, returns exactly `s`. -/
theorem summary_save_load_roundtrip (st : ClientState) (s : String) (now later : Nat)
    (h : later - now < summaryCacheTimeout) :
    (saveConversationSummary st now s).store = StoreState.readable (some s)
    ∧ (saveConversationSummary st now s).cache = some s
    ∧ (loadConversationSummary (saveConversationSummary st now s) later).1 = some s := by
  refine ⟨rfl, rfl, ?_⟩
  unfold loadConversationSummary saveConversationSummary
  by_cases hs : strTruthy (some s) = true ∧ later - now < summaryCacheTimeout
  · rw [if_pos hs]
  · rw [if_neg hs]

theorem summary_save_load_roundtrip_witness :
    (saveConversationSummary stInit 5 "S").store = StoreState.readable (some "S")
    ∧ (saveConversationSummary stInit 5 "S").cache = some "S"
    ∧ (loadConversationSummary (saveConversationSummary stInit 5 "S") 6).1 = some "S" :=
  summary_save_load_roundtrip stInit "S" 5 6 (by decide)

theorem extractTail_isOk (llm : String → Except String String) (cfg : Cfg)
    (um ar : String) (uid : Option Nat) (db : Option Db) (cc : String) (st1 : ClientState) :
    ∃ mems st2, extractTail llm cfg um ar uid db cc st1 = Except.ok (mems, st2) := by
  obtain ⟨r, hr⟩ : ∃ r, llm (cfg.memoryExtractionFmt ⟨um, ar, cc,
      match uid, db with
      | some u, some d => if u == 0 then "" else (buildMemoriesContext u d).getD ""
      | _, _ => ""⟩) = r := ⟨_, rfl⟩
  cases r with
  | error e => exact ⟨[], st1, by simp only [extractTail, hr]⟩
  | ok text => exact ⟨replyToMemories text, st1, by simp only [extractTail, hr]⟩

theorem extractMemories_ctx_ok (llm : String → Except String String) (cfg : Cfg)
    (st : ClientState) (now : Nat) (um ar : String) (history : Option (List Turn))
    (uid : Option Nat) (db : Option Db)
    (hlen : (history.getD []).length ≤ 30) :
    ∃ cc st1, extractMemories llm cfg st now um ar history uid db
      = extractTail llm cfg um ar uid db cc st1 := by
  match history with
  | none => exact ⟨"", st, rfl⟩
  | some [] => exact ⟨"", st, rfl⟩
  | some (a :: t) =>
    refine ⟨convContextOf (a :: t) (loadConversationSummary st now).1,
      (loadConversationSummary st now).2, ?_⟩
    have hle : (a :: t).length ≤ historyTruncateThreshold := by
      simpa [historyTruncateThreshold] using hlen
    simp only [extractMemories, historyTruthy, List.isEmpty, Bool.not_false, if_true,
      Option.getD, buildCC_le llm cfg st now (a :: t) (by simp) hle]

/-- C3 counterexample: with a 31-turn history (over the truncation threshold)
and an LLM gateway that raises, `_extract_memories` itself raises, because
`_build_conversation_context` — and with it the summarization call — runs
before the `try` block that is supposed to catch extraction failures. This
refutes the claim that the operation never raises for any input. -/
theorem extract_memories_raises_on_long_history :
    extractMemories llmBad cfg0 stInit 0 "u" "a" (some hist31) none none
      = Except.error "boom" := rfl

/-- C3 (amended): for every input whose history does not exceed the truncation
threshold of 30 turns, memory extraction never raises — it returns some
(possibly empty) memory list — and when the LLM gateway raises on every
prompt, the exception of the extraction call is caught and the empty list is
returned. (For longer histories a summarization failure inside context
building propagates, as the counterexample shows.) -/
theorem extract_memories_no_raise (llm : String → Except String String) (cfg : Cfg)
    (st : ClientState) (now : Nat) (um ar : String) (history : Option (List Turn))
    (uid : Option Nat) (db : Option Db)
    (hlen : (history.getD []).length ≤ 30) :
    (∃ mems st2, extractMemories llm cfg st now um ar history uid db
        = Except.ok (mems, st2))
    ∧ (∀ em, (∀ p, llm p = Except.error em) →
        ∃ st2, extractMemories llm cfg st now um ar history uid db
          = Except.ok ([], st2)) := by
  obtain ⟨cc, st1, hrw⟩ := extractMemories_ctx_ok llm cfg st now um ar history uid db hlen
  constructor
  · rw [hrw]
    exact extractTail_isOk llm cfg um ar uid db cc st1
  · intro em hfail
    rw [hrw]
    exact ⟨st1, by simp only [extractTail, hfail]⟩

theorem extract_memories_no_raise_witness :
    (∃ mems st2, extractMemories llmBad cfg0 stInit 0 "u" "a" (some [turnU]) (some 1) (some db0)
        = Except.ok (mems, st2))
    ∧ (∀ em, (∀ p, llmBad p = Except.error em) →
        ∃ st2, extractMemories llmBad cfg0 stInit 0 "u" "a" (some [turnU]) (some 1) (some db0)
          = Except.ok ([], st2)) :=
  extract_memories_no_raise llmBad cfg0 stInit 0 "u" "a" (some [turnU]) (some 1) (some db0)
    (by decide)

/-- C4: memory-extraction reply parsing. A reply that trims to the token
`NONE` in any letter case, or to the empty string, yields no memories; the
bracketed substring of any other reply is parsed as a literal list whose
elements are trimmed and dropped when empty — in particular the reply
`["Likes running", "", "  ", "Has a dog"]` yields exactly the two memories
`"Likes running"` and `"Has a dog"` — and replies without brackets or with
unparsable bracketed content yield the empty list rather than an error. -/
theorem memory_reply_parsing :
    (∀ s : String, pyUpper (pyStrip s) = "NONE" → replyToMemories s = [])
    ∧ (∀ s : String, pyStrip s = "" → replyToMemories s = [])
    ∧ replyToMemories "[\"Likes running\", \"\", \"  \", \"Has a dog\"]"
        = ["Likes running", "Has a dog"]
    ∧ replyToMemories "NONE" = []
    ∧ replyToMemories " nOnE " = []
    ∧ replyToMemories "" = []
    ∧ replyToMemories "no brackets in this reply" = []
    ∧ replyToMemories "bracket [ without close" = []
    ∧ replyToMemories "[this is not a parsable literal]" = []
    ∧ replyToMemories "noise [\"a\", \"b\"] trailing noise" = ["a", "b"] := by
  refine ⟨?_, ?_, by decide, by decide, by decide, by decide, by decide, by decide,
    by decide, by decide⟩
  · intro s h
    simp [replyToMemories, h]
  · intro s h
    simp [replyToMemories, h]

theorem memory_reply_parsing_witness : replyToMemories "  NoNe  " = [] :=
  memory_reply_parsing.1 "  NoNe  " (by decide)

/-- C9: for a profile tool call, a key outside the allowed set
`{first_name, last_name, birth_date, memories}` is silently ignored (the
database is unchanged and nothing is raised), and for the key `birth_date` a
value that does not parse strictly as `YYYY-MM-DD` — such as `"not-a-date"` —
leaves the profile untouched (in particular its birth date unset) and raises
no exception to the caller. -/
theorem profile_update_guards (k v : String) (uid : Option Nat) (db : Option Db) (now : Nat) :
    (k ∉ ["first_name", "last_name", "birth_date", "memories"] →
      handleUpdateUserProfile ⟨some k, some v⟩ uid db now = Except.ok db)
    ∧ (k = "birth_date" → parseDateYMD v = none →
      handleUpdateUserProfile ⟨some k, some v⟩ uid db now = Except.ok db) := by
  constructor
  · intro hk
    have c1 : (k == "first_name") = false :=
      beq_eq_false_iff_ne.mpr (fun h => hk (by simp [h]))
    have c2 : (k == "last_name") = false :=
      beq_eq_false_iff_ne.mpr (fun h => hk (by simp [h]))
    have c3 : (k == "birth_date") = false :=
      beq_eq_false_iff_ne.mpr (fun h => hk (by simp [h]))
    have cm : (k == "memories") = false :=
      beq_eq_false_iff_ne.mpr (fun h => hk (by simp [h]))
    match uid, db with
    | none, none => rfl
    | none, some d => rfl
    | some u, none => rfl
    | some u, some d =>
      by_cases hu : (u == 0) = true
      · simp [handleUpdateUserProfile, hu]
      · simp [handleUpdateUserProfile, hu, cm, List.contains, List.elem, c1, c2, c3]
  · intro hk hv
    subst hk
    match uid, db with
    | none, none => rfl
    | none, some d => rfl
    | some u, none => rfl
    | some u, some d =>
      by_cases hu : (u == 0) = true
      · simp [handleUpdateUserProfile, hu]
      · simp [handleUpdateUserProfile, hu, hv]

theorem profile_update_guards_witness :
    handleUpdateUserProfile ⟨some "birth_date", some "not-a-date"⟩ (some 1) (some db0) 0
      = Except.ok (some db0) :=
  (profile_update_guards "birth_date" "not-a-date" (some 1) (some db0) 0).2 rfl (by decide)

/-- C8 counterexample: when the underlying stream raises before yielding any
chunk, the generator emits exactly one error frame and stops — the error frame
is the last frame and is not followed by the done sentinel, refuting the claim
that every sequence, including erroring ones, is terminated by the done
frame. -/
theorem stream_error_not_followed_by_done :
    generateStream llmOk cfg0 stInit 0 "m" [] 1 db0 ([], some "boom")
      = [Frame.error "boom"]
    ∧ Frame.error "boom" ≠ Frame.done := ⟨rfl, by decide⟩

/-- C8 (amended): every frame sequence produced by the streamed-chat generator
is the chunks of the underlying stream, in order, each as a chunk frame,
followed by exactly one terminal frame, which is either the done sentinel or
an error frame; so the stream always ends with an explicit terminal frame and
never ends without one — but an error frame terminates the stream itself: no
done sentinel follows it. -/
theorem stream_terminal_frame (llm : String → Except String String) (cfg : Cfg)
    (st : ClientState) (now : Nat) (message : String) (history : List Turn)
    (uid : Nat) (d : Db) (src : List String × Option String) :
    ∃ t, generateStream llm cfg st now message history uid d src
        = src.1.map Frame.chunk ++ [t]
      ∧ (t = Frame.done ∨ ∃ e, t = Frame.error e) := by
  obtain ⟨chunks, errOpt⟩ := src
  cases errOpt with
  | some e => exact ⟨Frame.error e, rfl, Or.inr ⟨e, rfl⟩⟩
  | none =>
    by_cases hf : pyStrip (String.join chunks) = ""
    · exact ⟨Frame.done, by simp only [generateStream, if_pos hf], Or.inl rfl⟩
    · obtain ⟨r, hr⟩ : ∃ r, extractMemories llm cfg st now message (String.join chunks)
          (some history) (some uid) (some d) = r := ⟨_, rfl⟩
      cases r with
      | error e =>
        exact ⟨Frame.error e, by simp only [generateStream, if_neg hf, hr], Or.inr ⟨e, rfl⟩⟩
      | ok pr =>
        obtain ⟨mems, st2⟩ := pr
        by_cases hm : mems.isEmpty
        · exact ⟨Frame.done, by simp only [generateStream, if_neg hf, hr, hm, if_true],
            Or.inl rfl⟩
        · obtain ⟨w, hw⟩ : ∃ w, saveMemoriesToDb mems uid d now = w := ⟨_, rfl⟩
          cases w with
          | error e =>
            refine ⟨Frame.error e, ?_, Or.inr ⟨e, rfl⟩⟩
            simp only [generateStream, if_neg hf, hr, hw]
            rw [if_neg hm]
          | ok d2 =>
            refine ⟨Frame.done, ?_, Or.inl rfl⟩
            simp only [generateStream, if_neg hf, hr, hw]
            rw [if_neg hm]

theorem length_insertGoalDesc (g : Goal) (l : List Goal) :
    (insertGoalDesc g l).length = l.length + 1 := by
  induction l with
  | nil => rfl
  | cons h t ih =>
    simp only [insertGoalDesc]
    split
    · simp
    · simp [ih]

theorem length_sortGoalsByCreatedDesc (l : List Goal) :
    (sortGoalsByCreatedDesc l).length = l.length := by
  induction l with
  | nil => rfl
  | cons a t ih =>
    simp only [sortGoalsByCreatedDesc, List.foldr] at ih ⊢
    rw [length_insertGoalDesc, ih]
    simp

theorem sortGoalsByCreatedDesc_eq_nil {l : List Goal}
    (h : sortGoalsByCreatedDesc l = []) : l = [] := by
  have := length_sortGoalsByCreatedDesc l
  rw [h] at this
  exact List.length_eq_zero.mp this.symm

/-- C5: the assembled system instruction is the base system prompt followed,
in this fixed order, by the optional goals block, the optional memories block,
and the optional summary block, joined by blank lines — so the base prompt is
always present and assembly is total. The goals block appears only when the
user/db guard passes, the goals read did not fail, and the user has at least
one Active goal; it then renders at most the 10 most recently created Active
goals as bullets inside begin/end markers. The memories block appears only
when the profile read did not fail and the profile holds at least one memory;
it renders at most the 15 most recent memories inside begin/end markers. The
summary block appears only when a truthy summary was loaded. A failing goals
or profile read degrades its block to absent. -/
theorem system_instruction_assembly (cfg : Cfg) (st : ClientState) (now : Nat)
    (uid : Option Nat) (db : Option Db) :
    (buildSystemInstruction cfg st now uid db).1
      = pyJoin "\n\n" ([cfg.systemPrompt]
          ++ optTruthyToList (goalsBlockOf uid db)
          ++ optTruthyToList (memoriesBlockOf uid db)
          ++ (summaryBlockOf st now).toList)
    ∧ (∀ b, goalsBlockOf uid db = some b → ∃ u d, uid = some u ∧ db = some d
        ∧ d.goalsReadFails = false
        ∧ activeGoalsOf u d ≠ []
        ∧ b = renderGoalsBlock ((sortGoalsByCreatedDesc (activeGoalsOf u d)).take 10)
        ∧ ((sortGoalsByCreatedDesc (activeGoalsOf u d)).take 10).length ≤ 10)
    ∧ (∀ b, memoriesBlockOf uid db = some b → ∃ u d p ms, uid = some u ∧ db = some d
        ∧ d.profileReadFails = false
        ∧ d.profiles.find? (fun q => q.user_id == u) = some p
        ∧ p.memories = some ms ∧ ms ≠ []
        ∧ b = renderMemoriesBlock (recentMemories ms)
        ∧ (recentMemories ms).length ≤ 15)
    ∧ (∀ b, summaryBlockOf st now = some b →
        ∃ s, (loadConversationSummary st now).1 = some s ∧ s ≠ ""
          ∧ b = "Previous conversation summary: " ++ s)
    ∧ (∀ u d2, d2.goalsReadFails = true → goalsBlockOf (some u) (some d2) = none)
    ∧ (∀ u d2, d2.profileReadFails = true → memoriesBlockOf (some u) (some d2) = none) := by
  refine ⟨rfl, ?_, ?_, ?_, ?_, ?_⟩
  · intro b h
    match uid, db with
    | none, none => exact absurd h (by simp [goalsBlockOf])
    | none, some d => exact absurd h (by simp [goalsBlockOf])
    | some u, none => exact absurd h (by simp [goalsBlockOf])
    | some u, some d =>
      refine ⟨u, d, rfl, rfl, ?_⟩
      by_cases hu : (u == 0) = true
      · exact absurd h (by simp [goalsBlockOf, hu])
      · simp only [goalsBlockOf, hu, Bool.false_eq_true, if_false] at h
        by_cases hg : d.goalsReadFails = true
        · exact absurd h (by simp [buildGoalsContext, hg])
        · simp only [buildGoalsContext, hg, Bool.false_eq_true, if_false] at h
          by_cases he : ((sortGoalsByCreatedDesc (activeGoalsOf u d)).take 10).isEmpty = true
          · exact absurd h (by simp [he])
          · simp only [he, Bool.false_eq_true, if_false, Option.some.injEq] at h
            refine ⟨by simpa using hg, ?_, h.symm, List.length_take_le 10 _⟩
            intro hact
            apply he
            have : sortGoalsByCreatedDesc (activeGoalsOf u d) = [] := by
              rw [hact]; rfl
            simp [this]
  · intro b h
    match uid, db with
    | none, none => exact absurd h (by simp [memoriesBlockOf])
    | none, some d => exact absurd h (by simp [memoriesBlockOf])
    | some u, none => exact absurd h (by simp [memoriesBlockOf])
    | some u, some d =>
      by_cases hu : (u == 0) = true
      · exact absurd h (by simp [memoriesBlockOf, hu])
      · simp only [memoriesBlockOf, hu, Bool.false_eq_true, if_false] at h
        by_cases hp : d.profileReadFails = true
        · exact absurd h (by simp [buildMemoriesContext, hp])
        · simp only [buildMemoriesContext, hp, Bool.false_eq_true, if_false] at h
          split at h
          · exact absurd h (by simp)
          next p hfind =>
            split at h
            · exact absurd h (by simp)
            · exact absurd h (by simp)
            next ms hne hmem =>
              simp only [Option.some.injEq] at h
              refine ⟨u, d, p, ms, rfl, rfl, by simpa using hp, hfind, hmem,
                hne, h.symm, ?_⟩
              unfold recentMemories
              split
              · simp only [List.length_drop]
                omega
              · omega
  · intro b h
    unfold summaryBlockOf at h
    split at h
    next s hl =>
      by_cases hs : s = ""
      · rw [if_pos hs] at h
        exact absurd h (by simp)
      · rw [if_neg hs] at h
        simp only [Option.some.injEq] at h
        exact ⟨s, hl, hs, h.symm⟩
    next => exact absurd h (by simp)
  · intro u d2 hg
    by_cases hu : (u == 0) = true
    · simp [goalsBlockOf, hu]
    · simp [goalsBlockOf, hu, buildGoalsContext, hg]
  · intro u d2 hp
    by_cases hu : (u == 0) = true
    · simp [memoriesBlockOf, hu]
    · simp [memoriesBlockOf, hu, buildMemoriesContext, hp]

theorem system_instruction_assembly_witness :
    goalsBlockOf (some 1) (some dbGoalsFail) = none :=
  (system_instruction_assembly cfg0 stInit 0 (some 1) (some dbGoalsFail)).2.2.2.2.1
    1 dbGoalsFail rfl
